import Mathlib

/-!
Verification of `nala/learning/evaluators.py`: the mention-level span
evaluator (`MentionLevelEvaluator`) and the document-level relation
evaluator (`DocumentLevelRelationEvaluator`).

The evaluator logic is translated from `src/nala/learning/evaluators.py`.
The annotation data structures (`nala.structures.data.Entity`, relations)
are not part of the given sources; they are modelled from the spec where
noted.  Python floats are modelled as `Option ℚ` with `none` playing the
role of `NaN`; Python integers are `ℕ` / `ℤ`.
-/

/-- Modelled from the spec: a span (`nala.structures.data.Entity`, not in
`src/`) occupies character offsets `[start, stop)` within a document part
and carries a `subclass` label (§3 of the spec; the spec calls `stop` the
"end offset"). -/
structure Entity where
  start : ℕ
  stop : ℕ
  subclass : ℕ
deriving DecidableEq

/-- Modelled from the spec: the `exact` equality mode of
`Entity.equality_operator` — "same start AND same end offset" (§4.1). -/
def exact_eq (a b : Entity) : Bool :=
  a.start == b.start && a.stop == b.stop

/-- Modelled from the spec: the `overlapping` equality mode — "ranges
intersect, i.e. `startA < endB AND startB < endA`" (§4.1). -/
def overlap_eq (a b : Entity) : Bool :=
  a.start < b.stop && b.start < a.stop

/-- A document part: parallel collections of gold annotations and
predicted annotations (`part.annotations`, `part.predicted_annotations`). -/
structure DocPart where
  annotations : List Entity
  predicted_annotations : List Entity
deriving DecidableEq

/-- A document is a sequence of parts; a dataset a sequence of documents. -/
abbrev Document := List DocPart

abbrev Dataset := List Document

/-- Python `x / y` with `ZeroDivisionError` caught and turned into `NaN`
(`MentionLevelEvaluator.__safe_division` / the identical
`DocumentLevelRelationEvaluator.__safe_division`).  `none` is `NaN`:
dividing `NaN` by anything, or anything by `NaN`, gives `NaN` without
raising, while a zero denominator raises and is caught. -/
def safe_division : Option ℚ → Option ℚ → Option ℚ
  | some a, some b => if b = 0 then none else some (a / b)
  | _, _ => none

/-- `NaN`-propagating addition on Python floats. -/
def qadd : Option ℚ → Option ℚ → Option ℚ
  | some a, some b => some (a + b)
  | _, _ => none

/-- `NaN`-propagating multiplication on Python floats. -/
def qmul : Option ℚ → Option ℚ → Option ℚ
  | some a, some b => some (a * b)
  | _, _ => none

/-- `f_measure = 2 * safe_division(precision * recall_, precision + recall_)`
(evaluators.py line 172). -/
def f_measure_of (precision recall_ : Option ℚ) : Option ℚ :=
  qmul (some 2) (safe_division (qmul precision recall_) (qadd precision recall_))

namespace MentionLevelEvaluator

/-- The raw counters accumulated by `MentionLevelEvaluator.evaluate`
(evaluators.py line 71). -/
structure Counts where
  tp : ℕ
  fp : ℕ
  fn : ℕ
  fp_overlap : ℕ
  fn_overlap : ℕ
deriving DecidableEq

def zero_counts : Counts := ⟨0, 0, 0, 0, 0⟩

def add_counts (c d : Counts) : Counts :=
  ⟨c.tp + d.tp, c.fp + d.fp, c.fn + d.fn,
   c.fp_overlap + d.fp_overlap, c.fn_overlap + d.fn_overlap⟩

/-- The `overlap_real` list built by the overlap pass (evaluators.py lines
111–116): for each gold annotation `ann_a`, one copy of `ann_a` is appended
per predicted annotation `ann_b` it overlaps. -/
def overlap_real (part : DocPart) : List Entity :=
  part.annotations.flatMap fun a =>
    (part.predicted_annotations.filter fun b => overlap_eq a b).map fun _ => a

/-- The `overlap_predicted` list built by the overlap pass (evaluators.py
lines 111–116): for each gold annotation `ann_a`, every predicted
annotation `ann_b` overlapping it is appended. -/
def overlap_predicted (part : DocPart) : List Entity :=
  part.annotations.flatMap fun a =>
    part.predicted_annotations.filter fun b => overlap_eq a b

/-- Per-part counter increments of `MentionLevelEvaluator.evaluate`
(evaluators.py lines 94–124): the exact pass classifies each predicted
annotation as tp or fp and each gold annotation without an exact predicted
match as fn; `fp_overlap` / `fn_overlap` count, under exact equality,
the predicted / gold annotations that are members of `overlap_predicted` /
`overlap_real`. -/
def part_counts (part : DocPart) : Counts :=
  { tp := part.predicted_annotations.countP fun b =>
      part.annotations.any fun a => exact_eq a b
    fp := part.predicted_annotations.countP fun b =>
      ! part.annotations.any fun a => exact_eq a b
    fn := part.annotations.countP fun a =>
      ! part.predicted_annotations.any fun b => exact_eq b a
    fp_overlap := part.predicted_annotations.countP fun b =>
      (overlap_predicted part).any fun x => exact_eq x b
    fn_overlap := part.annotations.countP fun a =>
      (overlap_real part).any fun x => exact_eq x a }

/-- All parts of a dataset, in iteration order (`for doc in dataset: for
part in doc`). -/
def all_parts (d : Dataset) : List DocPart := d.flatten

/-- The corpus-wide totals accumulated by `evaluate` across all documents
and parts (plain sums). -/
def dataset_counts (d : Dataset) : Counts :=
  ((all_parts d).map part_counts).foldr add_counts zero_counts

/-- The tuple returned by `MentionLevelEvaluator.__calc_measures`
(evaluators.py line 179): `(tp, fp, fn, fp_overlap, fn_overlap, precision,
recall_, f_measure)`.  The fp/fn slots are integers because the overlap
strictness policies reassign `fp = fp - fp_overlap`, which can be
negative. -/
structure Result where
  tp : ℤ
  fp : ℤ
  fn : ℤ
  fp_overlap : ℤ
  fn_overlap : ℤ
  precision : Option ℚ
  recall_ : Option ℚ
  f_measure : Option ℚ
deriving DecidableEq

/-- `MentionLevelEvaluator.__calc_measures` (evaluators.py lines 153–179).
An unknown strictness raises `ValueError` (the spec's
`InvalidConfiguration`), modelled as `Except.error`. -/
def calc_measures (strictness : String) (c : Counts) : Except String Result :=
  if strictness = "exact" then
    let precision := safe_division (some (c.tp : ℚ)) (some ((c.tp : ℚ) + (c.fp : ℚ)))
    let recall_ := safe_division (some (c.tp : ℚ)) (some ((c.tp : ℚ) + (c.fn : ℚ)))
    Except.ok ⟨c.tp, c.fp, c.fn, c.fp_overlap, c.fn_overlap,
      precision, recall_, f_measure_of precision recall_⟩
  else if strictness = "overlapping" then
    let fp : ℤ := (c.fp : ℤ) - (c.fp_overlap : ℤ)
    let fn : ℤ := (c.fn : ℤ) - (c.fn_overlap : ℤ)
    let precision := safe_division
      (some ((c.tp : ℚ) + (c.fp_overlap : ℚ) + (c.fn_overlap : ℚ)))
      (some ((c.tp : ℚ) + (fp : ℚ) + (c.fp_overlap : ℚ) + (c.fn_overlap : ℚ)))
    let recall_ := safe_division
      (some ((c.tp : ℚ) + (c.fp_overlap : ℚ) + (c.fn_overlap : ℚ)))
      (some ((c.tp : ℚ) + (fn : ℚ) + (c.fp_overlap : ℚ) + (c.fn_overlap : ℚ)))
    Except.ok ⟨c.tp, fp, fn, c.fp_overlap, c.fn_overlap,
      precision, recall_, f_measure_of precision recall_⟩
  else if strictness = "half_overlapping" then
    let fp : ℤ := (c.fp : ℤ) - (c.fp_overlap : ℤ)
    let fn : ℤ := (c.fn : ℤ) - (c.fn_overlap : ℤ)
    let precision := safe_division
      (some ((c.tp : ℚ) + ((c.fp_overlap : ℚ) + (c.fn_overlap : ℚ)) / 2))
      (some ((c.tp : ℚ) + (fp : ℚ) + (c.fp_overlap : ℚ) + (c.fn_overlap : ℚ)))
    let recall_ := safe_division
      (some ((c.tp : ℚ) + ((c.fp_overlap : ℚ) + (c.fn_overlap : ℚ)) / 2))
      (some ((c.tp : ℚ) + (fn : ℚ) + (c.fp_overlap : ℚ) + (c.fn_overlap : ℚ)))
    Except.ok ⟨c.tp, fp, fn, c.fp_overlap, c.fn_overlap,
      precision, recall_, f_measure_of precision recall_⟩
  else
    Except.error "strictness must be \"exact\" or \"overlapping\" or \"half_overlapping\""

/-- `MentionLevelEvaluator.evaluate` without subclass analysis
(evaluators.py lines 54–144): accumulate counts over the corpus, then
apply `__calc_measures` once to the totals. -/
def evaluate (strictness : String) (d : Dataset) : Except String Result :=
  calc_measures strictness (dataset_counts d)

/-- Total number of predicted spans in the corpus. -/
def total_predicted (d : Dataset) : ℕ :=
  ((all_parts d).map fun part => part.predicted_annotations.length).sum

/-- Total number of gold spans in the corpus. -/
def total_gold (d : Dataset) : ℕ :=
  ((all_parts d).map fun part => part.annotations.length).sum

/-- The set of subclasses discovered when `subclass_analysis` is enabled
(evaluators.py lines 73–79): the union of the subclasses of all gold and
all predicted annotations of the corpus. -/
def subclasses (d : Dataset) : Finset ℕ :=
  ((((all_parts d).map DocPart.annotations).flatten.map Entity.subclass).toFinset) ∪
  ((((all_parts d).map DocPart.predicted_annotations).flatten.map Entity.subclass).toFinset)

/-- The `overlap_subclass_predicted[s]` list (evaluators.py lines 111–120):
an overlapping (gold, predicted) pair is recorded for subclass `s` only
when both spans carry subclass `s`. -/
def overlap_subclass_predicted (s : ℕ) (part : DocPart) : List Entity :=
  part.annotations.flatMap fun a =>
    part.predicted_annotations.filter fun b =>
      overlap_eq a b && a.subclass == b.subclass && b.subclass == s

/-- The `overlap_subclass_real[s]` list (evaluators.py lines 111–120). -/
def overlap_subclass_real (s : ℕ) (part : DocPart) : List Entity :=
  part.annotations.flatMap fun a =>
    (part.predicted_annotations.filter fun b =>
      overlap_eq a b && a.subclass == b.subclass && b.subclass == s).map fun _ => a

/-- Per-part increments of `subclass_counts[s]` (evaluators.py lines
94–133): every tp/fp increment for a predicted annotation of subclass `s`,
every fn increment for a gold annotation of subclass `s`, and the
subclass-restricted overlap memberships. -/
def subclass_part_counts (s : ℕ) (part : DocPart) : Counts :=
  { tp := part.predicted_annotations.countP fun b =>
      (part.annotations.any fun a => exact_eq a b) && b.subclass == s
    fp := part.predicted_annotations.countP fun b =>
      (! part.annotations.any fun a => exact_eq a b) && b.subclass == s
    fn := part.annotations.countP fun a =>
      (! part.predicted_annotations.any fun b => exact_eq b a) && a.subclass == s
    fp_overlap := part.predicted_annotations.countP fun b =>
      ((overlap_subclass_predicted s part).any fun x => exact_eq x b) && b.subclass == s
    fn_overlap := part.annotations.countP fun a =>
      ((overlap_subclass_real s part).any fun x => exact_eq x a) && a.subclass == s }

/-- The corpus-wide entry `subclass_counts[s]` accumulated by `evaluate`
when `subclass_analysis` is enabled. -/
def subclass_dataset_counts (s : ℕ) (d : Dataset) : Counts :=
  ((all_parts d).map (subclass_part_counts s)).foldr add_counts zero_counts

end MentionLevelEvaluator

/-- Modelled from the spec: a relation (from `nala.structures.data`, not in
`src/`) is a pair of entity texts (§3, §4.2). -/
structure Relation where
  e1 : String
  e2 : String
deriving DecidableEq

/-- Modelled from the spec: relation equality is order-independent —
"(entityA, entityB) is also the same as (entityB, entityA)" (§4.2 and the
`DocumentLevelRelationEvaluator` docstring). -/
def rel_eq (a b : Relation) : Bool :=
  (a.e1 == b.e1 && a.e2 == b.e2) || (a.e1 == b.e2 && a.e2 == b.e1)

/-- Modelled from the spec: `relation.lower()` — "both entities will be
converted to lower case" (docstring of `DocumentLevelRelationEvaluator`).
ASCII lower-casing character by character, as Python `str.lower` on ASCII. -/
def rel_lower (r : Relation) : Relation :=
  ⟨⟨r.e1.data.map Char.toLower⟩, ⟨r.e2.data.map Char.toLower⟩⟩

/-- A document as seen by `DocumentLevelRelationEvaluator.evaluate`: its
unique gold relations (`get_unique_relations()`) and unique predicted
relations (`get_unique_predicted_relations()`), already extracted by the
collaborator. -/
structure RelDoc where
  relations : List Relation
  predicted_relations : List Relation
deriving DecidableEq

namespace DocumentLevelRelationEvaluator

/-- Per-document tp/fp/fn increments of
`DocumentLevelRelationEvaluator.evaluate` (evaluators.py lines 242–255).
NOTE: the source lower-cases both collections when `match_case` is TRUE
(`if self.match_case:` on line 245), which is the inverse of the class's
own docstring; the translation is faithful to the code. -/
def doc_counts (match_case : Bool) (doc : RelDoc) : ℕ × ℕ × ℕ :=
  let predicted := if match_case then doc.predicted_relations.map rel_lower
                   else doc.predicted_relations
  let actual := if match_case then doc.relations.map rel_lower
                else doc.relations
  (predicted.countP fun r => actual.any fun x => rel_eq x r,
   predicted.countP fun r => ! actual.any fun x => rel_eq x r,
   actual.countP fun r => ! predicted.any fun x => rel_eq x r)

/-- Corpus totals of `DocumentLevelRelationEvaluator.evaluate`. -/
def dataset_rel_counts (match_case : Bool) (docs : List RelDoc) : ℕ × ℕ × ℕ :=
  (docs.map (doc_counts match_case)).foldr
    (fun c d => (c.1 + d.1, c.2.1 + d.2.1, c.2.2 + d.2.2)) (0, 0, 0)

/-- `DocumentLevelRelationEvaluator.evaluate` (evaluators.py lines
209–258): returns `(tp, fp, fn, precision, recall, f_measure)`. -/
def evaluate (match_case : Bool) (docs : List RelDoc) :
    ℕ × ℕ × ℕ × Option ℚ × Option ℚ × Option ℚ :=
  let c := dataset_rel_counts match_case docs
  let precision := safe_division (some (c.1 : ℚ)) (some ((c.1 : ℚ) + (c.2.1 : ℚ)))
  let recall_ := safe_division (some (c.1 : ℚ)) (some ((c.1 : ℚ) + (c.2.2 : ℚ)))
  (c.1, c.2.1, c.2.2, precision, recall_, f_measure_of precision recall_)

end DocumentLevelRelationEvaluator


deriving instance DecidableEq for Except

/-!  Concrete fixture corpora used by the theorems below. -/

/-- Scenario 3 of the spec: gold `[(0,10)]`, predicted `[(5,15)]`. -/
def part_scenario3 : DocPart := ⟨[⟨0, 10, 0⟩], [⟨5, 15, 0⟩]⟩

def ds_scenario3 : Dataset := [[part_scenario3]]

/-- Scenario 2 of the spec: gold `[(0,5)]`, no predictions. -/
def ds_scenario2 : Dataset := [[⟨[⟨0, 5, 0⟩], []⟩]]

/-- One part whose single predicted span exactly matches its single gold
span. -/
def part_exact_match : DocPart := ⟨[⟨0, 5, 0⟩], [⟨0, 5, 0⟩]⟩

def ds_exact_match : Dataset := [[part_exact_match]]

/-- One part with one gold span and two identical predicted copies of it. -/
def ds_dup_pred : Dataset := [[⟨[⟨0, 5, 0⟩], [⟨0, 5, 0⟩, ⟨0, 5, 0⟩]⟩]]

/-- One part where the single predicted span `(2,6)` overlaps both gold
spans `(0,5)` and `(3,8)`. -/
def part_two_gold : DocPart := ⟨[⟨0, 5, 0⟩, ⟨3, 8, 0⟩], [⟨2, 6, 0⟩]⟩

/-- One document whose gold relation and predicted relation differ only in
case. -/
def rel_doc_case : RelDoc := ⟨[⟨"proteinx", "geney"⟩], [⟨"ProteinX", "GeneY"⟩]⟩

/-- Modelled from the spec's words (§4.1 step 3), for comparison with the
source's accounting: "count `fp_overlap` as the number of predicted spans
that are exact-identity members of `overlap_predicted` but were not
already tp". -/
def spec_fp_overlap_part (part : DocPart) : ℕ :=
  part.predicted_annotations.countP fun b =>
    ((MentionLevelEvaluator.overlap_predicted part).any fun x => exact_eq x b) &&
    ! (part.annotations.any fun a => exact_eq a b)

/-- The exact-identity key of a span: its `(start, stop)` offsets. -/
def span_key (e : Entity) : ℕ × ℕ := (e.start, e.stop)

/-- A Python float (`Option ℚ` here) that is `NaN` or lies in `[0, 1]`. -/
def in_unit : Option ℚ → Prop
  | none => True
  | some q => 0 ≤ q ∧ q ≤ 1

/-- Claim C1: the claim (and the class docstring of
`DocumentLevelRelationEvaluator`) say case folding happens when
`match_case` is False; the source applies `.lower()` when `match_case` is
True (`if self.match_case:` at evaluators.py line 245).  Evaluating the
code at the claim's input: with `match_case = False` the relations
`("ProteinX","GeneY")` and `("proteinx","geney")` do NOT match
(tp=0, fp=1, fn=1), and with `match_case = True` they DO match
(tp=1, fp=0, fn=0) — both halves of the claim are inverted by the code. -/
theorem c1_match_case_inverted :
    DocumentLevelRelationEvaluator.evaluate false [rel_doc_case] =
      (0, 1, 1, some 0, some 0, none) ∧
    DocumentLevelRelationEvaluator.evaluate true [rel_doc_case] =
      (1, 0, 0, some 1, some 1, some 1) := by
  constructor
  · have hc : DocumentLevelRelationEvaluator.dataset_rel_counts false [rel_doc_case] =
        (0, 1, 1) := by decide
    unfold DocumentLevelRelationEvaluator.evaluate
    rw [hc]
    norm_num [safe_division, f_measure_of, qmul, qadd]
  · have hc : DocumentLevelRelationEvaluator.dataset_rel_counts true [rel_doc_case] =
        (1, 0, 0) := by decide
    unfold DocumentLevelRelationEvaluator.evaluate
    rw [hc]
    norm_num [safe_division, f_measure_of, qmul, qadd]

/-- Claim C5: scenario 3 — gold `[(0,10)]`, predicted `[(5,15)]`: the exact
pass yields `fp = 1, fn = 1`, the overlap pass `fp_overlap = 1,
fn_overlap = 1`; under `overlapping` strictness the adjusted `fp' = fn' = 0`
and precision = recall = 1; under `half_overlapping`
precision = recall = 1/2. -/
theorem c5_scenario3 :
    MentionLevelEvaluator.dataset_counts ds_scenario3 = ⟨0, 1, 1, 1, 1⟩ ∧
    MentionLevelEvaluator.evaluate "overlapping" ds_scenario3 =
      Except.ok ⟨0, 0, 0, 1, 1, some 1, some 1, some 1⟩ ∧
    MentionLevelEvaluator.evaluate "half_overlapping" ds_scenario3 =
      Except.ok ⟨0, 0, 0, 1, 1, some (1/2), some (1/2), some (1/2)⟩ := by
  have hc : MentionLevelEvaluator.dataset_counts ds_scenario3 = ⟨0, 1, 1, 1, 1⟩ := by decide
  refine ⟨hc, ?_, ?_⟩
  · unfold MentionLevelEvaluator.evaluate
    rw [hc]
    unfold MentionLevelEvaluator.calc_measures
    rw [if_neg (by decide), if_pos rfl]
    norm_num [safe_division, f_measure_of, qmul, qadd]
  · unfold MentionLevelEvaluator.evaluate
    rw [hc]
    unfold MentionLevelEvaluator.calc_measures
    rw [if_neg (by decide), if_neg (by decide), if_pos rfl]
    norm_num [safe_division, f_measure_of, qmul, qadd]

/-- Claim C6: any strictness value other than `exact`, `overlapping` or
`half_overlapping` makes `evaluate` fail with the configuration error
(`raise ValueError(...)` at evaluators.py line 170) and no counts or
measures are returned. -/
theorem c6_invalid_strictness (s : String) (d : Dataset)
    (h1 : s ≠ "exact") (h2 : s ≠ "overlapping") (h3 : s ≠ "half_overlapping") :
    MentionLevelEvaluator.evaluate s d =
      Except.error "strictness must be \"exact\" or \"overlapping\" or \"half_overlapping\"" := by
  unfold MentionLevelEvaluator.evaluate MentionLevelEvaluator.calc_measures
  rw [if_neg h1, if_neg h2, if_neg h3]

/-- Witness for C6 at the concrete strictness `"strict"`. -/
theorem c6_invalid_strictness_witness :
    MentionLevelEvaluator.evaluate "strict" ds_scenario2 =
      Except.error "strictness must be \"exact\" or \"overlapping\" or \"half_overlapping\"" :=
  c6_invalid_strictness "strict" ds_scenario2 (by decide) (by decide) (by decide)

/-- Claim C7: every zero-denominator ratio yields NaN (`none`) rather than
an error, and scenario 2 — gold `[(0,5)]`, no predictions — returns
`tp = 0, fp = 0, fn = 1`, precision = NaN, recall = 0, f_measure = NaN
under `exact` strictness. -/
theorem c7_zero_denominator :
    (∀ x : Option ℚ, safe_division x (some 0) = none) ∧
    (∀ x : Option ℚ, safe_division x none = none) ∧
    MentionLevelEvaluator.evaluate "exact" ds_scenario2 =
      Except.ok ⟨0, 0, 1, 0, 0, none, some 0, none⟩ := by
  refine ⟨?_, ?_, ?_⟩
  · intro x
    cases x <;> simp [safe_division]
  · intro x
    cases x <;> simp [safe_division]
  · have hc : MentionLevelEvaluator.dataset_counts ds_scenario2 = ⟨0, 0, 1, 0, 0⟩ := by decide
    unfold MentionLevelEvaluator.evaluate
    rw [hc]
    unfold MentionLevelEvaluator.calc_measures
    rw [if_pos rfl]
    norm_num [safe_division, f_measure_of, qmul, qadd]

/-- Membership in a deduplicated list is membership, so `any` is unchanged
by `dedup`. -/
theorem any_dedup {α : Type} [DecidableEq α] (l : List α) (q : α → Bool) :
    l.dedup.any q = l.any q := by
  rw [Bool.eq_iff_iff]
  simp only [List.any_eq_true, List.mem_dedup]

/-- A predicted span of nonempty extent that exactly matches a gold span of
its part is a member of that part's `overlap_predicted` list: exact match
implies overlap. -/
theorem exact_match_mem_overlap_predicted (part : DocPart) (b : Entity)
    (hb : b ∈ part.predicted_annotations) (hne : b.start < b.stop)
    (hex : (part.annotations.any fun a => exact_eq a b) = true) :
    b ∈ MentionLevelEvaluator.overlap_predicted part := by
  rw [List.any_eq_true] at hex
  obtain ⟨a, ha, hab⟩ := hex
  simp only [exact_eq, Bool.and_eq_true, beq_iff_eq] at hab
  obtain ⟨h1, h2⟩ := hab
  unfold MentionLevelEvaluator.overlap_predicted
  rw [List.mem_flatMap]
  refine ⟨a, ha, ?_⟩
  rw [List.mem_filter]
  refine ⟨hb, ?_⟩
  simp only [overlap_eq, Bool.and_eq_true, decide_eq_true_eq]
  omega

/-- Claim C2 counterexample: in a part whose single predicted span `(0,5)`
exactly matches the single gold span, the code counts `fp_overlap = 1`
even though the span was already counted as tp (`tp = 1`), while the
claim's rule ("members of `overlap_predicted` but not already tp") would
give 0. -/
theorem c2_counterexample :
    (MentionLevelEvaluator.part_counts part_exact_match).tp = 1 ∧
    (MentionLevelEvaluator.part_counts part_exact_match).fp_overlap = 1 ∧
    spec_fp_overlap_part part_exact_match = 0 ∧
    (MentionLevelEvaluator.part_counts part_exact_match).fp_overlap ≠
      spec_fp_overlap_part part_exact_match := by
  decide

/-- A gold span of nonempty extent that exactly matches a predicted span
of its part is a member of that part's `overlap_real` list. -/
theorem exact_match_mem_overlap_real (part : DocPart) (a : Entity)
    (ha : a ∈ part.annotations) (hne : a.start < a.stop)
    (hex : (part.predicted_annotations.any fun b => exact_eq b a) = true) :
    a ∈ MentionLevelEvaluator.overlap_real part := by
  rw [List.any_eq_true] at hex
  obtain ⟨b, hb, hab⟩ := hex
  simp only [exact_eq, Bool.and_eq_true, beq_iff_eq] at hab
  obtain ⟨h1, h2⟩ := hab
  unfold MentionLevelEvaluator.overlap_real
  rw [List.mem_flatMap]
  refine ⟨a, ha, ?_⟩
  rw [List.mem_map]
  refine ⟨b, ?_, rfl⟩
  rw [List.mem_filter]
  refine ⟨hb, ?_⟩
  simp only [overlap_eq, Bool.and_eq_true, decide_eq_true_eq]
  omega

/-- Claim C2 amended: `fp_overlap` counts ALL predicted spans that are
exact-identity members of `overlap_predicted`, with no exclusion of spans
already counted as tp — in particular, when every predicted span has
nonempty extent, every tp span is also counted in `fp_overlap`
(`tp ≤ fp_overlap`); symmetrically, `fn_overlap` counts all gold spans
that are members of `overlap_real`, exactly-matched gold spans
included. -/
theorem c2_amended (part : DocPart)
    (hne : ∀ e ∈ part.predicted_annotations, e.start < e.stop)
    (hga : ∀ e ∈ part.annotations, e.start < e.stop) :
    ((MentionLevelEvaluator.part_counts part).fp_overlap =
      (part.predicted_annotations.countP fun b =>
        (MentionLevelEvaluator.overlap_predicted part).any fun x => exact_eq x b) ∧
    (MentionLevelEvaluator.part_counts part).tp ≤
      (MentionLevelEvaluator.part_counts part).fp_overlap) ∧
    ((MentionLevelEvaluator.part_counts part).fn_overlap =
      (part.annotations.countP fun a =>
        (MentionLevelEvaluator.overlap_real part).any fun x => exact_eq x a) ∧
    (part.annotations.countP fun a =>
      part.predicted_annotations.any fun b => exact_eq b a) ≤
      (MentionLevelEvaluator.part_counts part).fn_overlap) := by
  constructor
  · refine ⟨rfl, ?_⟩
    apply List.countP_mono_left
    intro b hb hex
    have hmem : b ∈ MentionLevelEvaluator.overlap_predicted part :=
      exact_match_mem_overlap_predicted part b hb (hne b hb) hex
    rw [List.any_eq_true]
    refine ⟨b, hmem, ?_⟩
    simp [exact_eq]
  · refine ⟨rfl, ?_⟩
    apply List.countP_mono_left
    intro a ha hex
    have hmem : a ∈ MentionLevelEvaluator.overlap_real part :=
      exact_match_mem_overlap_real part a ha (hga a ha) hex
    rw [List.any_eq_true]
    refine ⟨a, hmem, ?_⟩
    simp [exact_eq]

/-- Witness for C2's amended theorem at the concrete part
`gold = [(0,5)], predicted = [(0,5)]`. -/
theorem c2_amended_witness :
    ((MentionLevelEvaluator.part_counts part_exact_match).fp_overlap =
      (part_exact_match.predicted_annotations.countP fun b =>
        (MentionLevelEvaluator.overlap_predicted part_exact_match).any fun x => exact_eq x b) ∧
    (MentionLevelEvaluator.part_counts part_exact_match).tp ≤
      (MentionLevelEvaluator.part_counts part_exact_match).fp_overlap) ∧
    ((MentionLevelEvaluator.part_counts part_exact_match).fn_overlap =
      (part_exact_match.annotations.countP fun a =>
        (MentionLevelEvaluator.overlap_real part_exact_match).any fun x => exact_eq x a) ∧
    (part_exact_match.annotations.countP fun a =>
      part_exact_match.predicted_annotations.any fun b => exact_eq b a) ≤
      (MentionLevelEvaluator.part_counts part_exact_match).fn_overlap) :=
  c2_amended part_exact_match (by decide) (by decide)

/-- Claim C8: a predicted span contributes to `fp_overlap` at most once
per occurrence in the predicted collection (the count is bounded by the
number of predicted spans), and duplicate entries in `overlap_predicted`
are deduplicated implicitly by the final exact-identity membership test
(replacing `overlap_predicted` by its deduplication leaves the count
unchanged); symmetrically for `fn_overlap` over `overlap_real`.  In the
concrete part where predicted `(2,6)` overlaps both gold spans `(0,5)` and
`(3,8)`, `overlap_predicted` holds two copies of `(2,6)` yet
`fp_overlap = 1`. -/
theorem c8_overlap_dedup :
    (∀ part : DocPart,
      (MentionLevelEvaluator.part_counts part).fp_overlap =
        (part.predicted_annotations.countP fun b =>
          ((MentionLevelEvaluator.overlap_predicted part).dedup).any fun x => exact_eq x b) ∧
      (MentionLevelEvaluator.part_counts part).fp_overlap ≤
        part.predicted_annotations.length ∧
      (MentionLevelEvaluator.part_counts part).fn_overlap =
        (part.annotations.countP fun a =>
          ((MentionLevelEvaluator.overlap_real part).dedup).any fun x => exact_eq x a) ∧
      (MentionLevelEvaluator.part_counts part).fn_overlap ≤ part.annotations.length) ∧
    (MentionLevelEvaluator.overlap_predicted part_two_gold).length = 2 ∧
    (MentionLevelEvaluator.part_counts part_two_gold).fp_overlap = 1 := by
  refine ⟨?_, by decide, by decide⟩
  intro part
  refine ⟨?_, List.countP_le_length _, ?_, List.countP_le_length _⟩
  · apply List.countP_congr
    intro b _
    rw [any_dedup]
  · apply List.countP_congr
    intro a _
    rw [any_dedup]

/-- Claim C10: under `overlapping` or `half_overlapping` strictness the fp
and fn slots of the returned tuple are the adjusted values
`fp - fp_overlap` and `fn - fn_overlap` (evaluators.py lines 158–159,
164–165), and on the corpus whose single predicted span exactly matches
the single gold span these returned slots are negative (`-1`). -/
theorem c10_adjusted_fp_fn :
    (∀ c : MentionLevelEvaluator.Counts,
      (MentionLevelEvaluator.calc_measures "overlapping" c).map
          (fun r => (r.fp, r.fn)) =
        Except.ok ((c.fp : ℤ) - (c.fp_overlap : ℤ), (c.fn : ℤ) - (c.fn_overlap : ℤ)) ∧
      (MentionLevelEvaluator.calc_measures "half_overlapping" c).map
          (fun r => (r.fp, r.fn)) =
        Except.ok ((c.fp : ℤ) - (c.fp_overlap : ℤ), (c.fn : ℤ) - (c.fn_overlap : ℤ))) ∧
    MentionLevelEvaluator.evaluate "overlapping" ds_exact_match =
      Except.ok ⟨1, -1, -1, 1, 1, some (3/2), some (3/2), some (3/2)⟩ := by
  constructor
  · intro c
    constructor
    · unfold MentionLevelEvaluator.calc_measures
      rw [if_neg (by decide), if_pos rfl]
      rfl
    · unfold MentionLevelEvaluator.calc_measures
      rw [if_neg (by decide), if_neg (by decide), if_pos rfl]
      rfl
  · have hc : MentionLevelEvaluator.dataset_counts ds_exact_match = ⟨1, 0, 0, 1, 1⟩ := by
      decide
    unfold MentionLevelEvaluator.evaluate
    rw [hc]
    unfold MentionLevelEvaluator.calc_measures
    rw [if_neg (by decide), if_pos rfl]
    norm_num [safe_division, f_measure_of, qmul, qadd]

/-- Claim C3 counterexample: under `overlapping` strictness the corpus
whose single predicted span exactly matches its single gold span yields
precision = 3/2, which is neither NaN nor in `[0,1]` (the exact-matching
span inflates `fp_overlap`, making the adjusted denominator smaller than
the numerator). -/
theorem c3_counterexample :
    (MentionLevelEvaluator.evaluate "overlapping" ds_exact_match).map
        MentionLevelEvaluator.Result.precision = Except.ok (some (3/2)) ∧
    ¬ ((3/2 : ℚ) ≤ 1) := by
  constructor
  · have hc : MentionLevelEvaluator.dataset_counts ds_exact_match = ⟨1, 0, 0, 1, 1⟩ := by
      decide
    unfold MentionLevelEvaluator.evaluate
    rw [hc]
    unfold MentionLevelEvaluator.calc_measures
    rw [if_neg (by decide), if_pos rfl]
    norm_num [safe_division]
    rfl
  · norm_num

/-- A safe division of `a` by `b` with `0 ≤ a ≤ b` is NaN or in `[0,1]`. -/
theorem safe_division_in_unit {a b : ℚ} (ha : 0 ≤ a) (hab : a ≤ b) :
    in_unit (safe_division (some a) (some b)) := by
  unfold safe_division
  by_cases hb : b = 0
  · simp [hb, in_unit]
  · have hbpos : 0 < b := lt_of_le_of_ne (le_trans ha hab) (Ne.symm hb)
    simp only [hb, if_false, in_unit]
    exact ⟨div_nonneg ha hbpos.le, (div_le_one hbpos).mpr hab⟩

/-- If precision and recall are each NaN or in `[0,1]`, so is the harmonic
mean `2 * (p*r) / (p+r)` computed by the evaluator. -/
theorem f_measure_of_in_unit {p r : Option ℚ} (hp : in_unit p) (hr : in_unit r) :
    in_unit (f_measure_of p r) := by
  cases p with
  | none => simp [f_measure_of, qmul, qadd, safe_division, in_unit]
  | some pq =>
    cases r with
    | none => simp [f_measure_of, qmul, qadd, safe_division, in_unit]
    | some rq =>
      obtain ⟨hp0, hp1⟩ := hp
      obtain ⟨hr0, hr1⟩ := hr
      by_cases hz : pq + rq = 0
      · simp [f_measure_of, qmul, qadd, safe_division, hz, in_unit]
      · have hpos : 0 < pq + rq := lt_of_le_of_ne (add_nonneg hp0 hr0) (Ne.symm hz)
        simp only [f_measure_of, qmul, qadd, safe_division, hz, if_false, in_unit]
        constructor
        · positivity
        · rw [mul_div_assoc', div_le_one hpos]
          nlinarith [mul_nonneg hp0 hr0, mul_nonneg (sub_nonneg.mpr hp1) hr0,
            mul_nonneg (sub_nonneg.mpr hr1) hp0]

/-- Claim C3 amended: under `exact` strictness the precision, recall and
f_measure returned for every corpus are each NaN or in `[0,1]`; under the
two overlap strictness values the bound can fail (see the
counterexample). -/
theorem c3_amended (d : Dataset) :
    ∃ r : MentionLevelEvaluator.Result,
      MentionLevelEvaluator.evaluate "exact" d = Except.ok r ∧
      in_unit r.precision ∧ in_unit r.recall_ ∧ in_unit r.f_measure := by
  unfold MentionLevelEvaluator.evaluate MentionLevelEvaluator.calc_measures
  rw [if_pos rfl]
  set c := MentionLevelEvaluator.dataset_counts d with hc
  have hp : in_unit (safe_division (some (c.tp : ℚ)) (some ((c.tp : ℚ) + (c.fp : ℚ)))) :=
    safe_division_in_unit (by positivity) (le_add_of_nonneg_right (by positivity))
  have hr : in_unit (safe_division (some (c.tp : ℚ)) (some ((c.tp : ℚ) + (c.fn : ℚ)))) :=
    safe_division_in_unit (by positivity) (le_add_of_nonneg_right (by positivity))
  exact ⟨_, rfl, hp, hr, f_measure_of_in_unit hp hr⟩

/-- A count of matches plus a count of non-matches is the list length. -/
theorem countP_add_countP_not {α : Type} (p : α → Bool) (l : List α) :
    l.countP p + l.countP (fun a => ! p a) = l.length := by
  induction l with
  | nil => rfl
  | cons a l ih =>
    simp only [List.countP_cons, List.length_cons]
    cases h : p a <;> simp [h] <;> omega

/-- Sums of componentwise-added maps split. -/
theorem sum_map_add_nat {α : Type} (l : List α) (f g : α → ℕ) :
    (l.map fun a => f a + g a).sum = (l.map f).sum + (l.map g).sum := by
  induction l with
  | nil => rfl
  | cons a l ih => simp only [List.map_cons, List.sum_cons, ih]; omega

/-- The tp projection of the folded totals is the sum of per-part tp. -/
theorem foldr_counts_tp (l : List MentionLevelEvaluator.Counts) :
    (l.foldr MentionLevelEvaluator.add_counts MentionLevelEvaluator.zero_counts).tp =
      (l.map MentionLevelEvaluator.Counts.tp).sum := by
  induction l with
  | nil => rfl
  | cons c l ih => simp [MentionLevelEvaluator.add_counts, ih]

/-- The fp projection of the folded totals is the sum of per-part fp. -/
theorem foldr_counts_fp (l : List MentionLevelEvaluator.Counts) :
    (l.foldr MentionLevelEvaluator.add_counts MentionLevelEvaluator.zero_counts).fp =
      (l.map MentionLevelEvaluator.Counts.fp).sum := by
  induction l with
  | nil => rfl
  | cons c l ih => simp [MentionLevelEvaluator.add_counts, ih]

/-- The fn projection of the folded totals is the sum of per-part fn. -/
theorem foldr_counts_fn (l : List MentionLevelEvaluator.Counts) :
    (l.foldr MentionLevelEvaluator.add_counts MentionLevelEvaluator.zero_counts).fn =
      (l.map MentionLevelEvaluator.Counts.fn).sum := by
  induction l with
  | nil => rfl
  | cons c l ih => simp [MentionLevelEvaluator.add_counts, ih]

/-- For duplicate-free key lists, counting members of `B` inside `A` and
members of `A` inside `B` both measure the intersection. -/
theorem nodup_countP_mem_comm (A B : List (ℕ × ℕ)) (hA : A.Nodup) (hB : B.Nodup) :
    A.countP (fun k => decide (k ∈ B)) = B.countP (fun k => decide (k ∈ A)) := by
  have hfil : ∀ (X Y : List (ℕ × ℕ)),
      (X.filter (fun k => decide (k ∈ Y))).toFinset = X.toFinset ∩ Y.toFinset := by
    intro X Y
    ext x
    simp [List.mem_toFinset, List.mem_filter, Finset.mem_inter]
  rw [List.countP_eq_length_filter, List.countP_eq_length_filter,
    ← List.toFinset_card_of_nodup (hA.filter _),
    ← List.toFinset_card_of_nodup (hB.filter _),
    hfil A B, hfil B A, Finset.inter_comm]

/-- The exact pass's membership test over a part's gold list, rephrased
through span keys. -/
theorem any_exact_iff_key_mem (l : List Entity) (b : Entity) :
    (l.any fun a => exact_eq a b) = true ↔ span_key b ∈ l.map span_key := by
  simp only [List.any_eq_true, List.mem_map]
  constructor
  · rintro ⟨a, ha, hab⟩
    refine ⟨a, ha, ?_⟩
    simp only [exact_eq, Bool.and_eq_true, beq_iff_eq] at hab
    simp [span_key, hab.1, hab.2]
  · rintro ⟨a, ha, hk⟩
    refine ⟨a, ha, ?_⟩
    simp only [span_key, Prod.mk.injEq] at hk
    simp [exact_eq, hk.1, hk.2]

/-- Per part, with duplicate-free gold and predicted key lists, the exact
pass satisfies `tp + fn = number of gold spans`. -/
theorem part_tp_fn (part : DocPart)
    (hA : (part.annotations.map span_key).Nodup)
    (hP : (part.predicted_annotations.map span_key).Nodup) :
    (MentionLevelEvaluator.part_counts part).tp +
      (MentionLevelEvaluator.part_counts part).fn = part.annotations.length := by
  have htp : (MentionLevelEvaluator.part_counts part).tp =
      (part.predicted_annotations.map span_key).countP
        (fun k => decide (k ∈ part.annotations.map span_key)) := by
    rw [List.countP_map]
    apply List.countP_congr
    intro b _
    simp only [Function.comp_apply, decide_eq_true_eq]
    exact any_exact_iff_key_mem part.annotations b
  have hfn : (MentionLevelEvaluator.part_counts part).fn =
      (part.annotations.map span_key).countP
        (fun k => ! decide (k ∈ part.predicted_annotations.map span_key)) := by
    rw [List.countP_map]
    apply List.countP_congr
    intro a _
    simp only [Function.comp_apply, Bool.not_eq_true', decide_eq_false_iff_not]
    rw [← any_exact_iff_key_mem part.predicted_annotations a]
    simp
  rw [htp, hfn, nodup_countP_mem_comm _ _ hP hA,
    countP_add_countP_not (fun k => decide (k ∈ part.predicted_annotations.map span_key))
      (part.annotations.map span_key), List.length_map]

/-- Claim C4 counterexample: with one gold span `(0,5)` and two identical
predicted copies of it, the exact pass gives `tp = 2`, `fn = 0`, so
`tp + fn = 2` while the corpus holds one gold span. -/
theorem c4_counterexample :
    (MentionLevelEvaluator.dataset_counts ds_dup_pred).tp +
        (MentionLevelEvaluator.dataset_counts ds_dup_pred).fn = 2 ∧
    MentionLevelEvaluator.total_gold ds_dup_pred = 1 ∧
    (MentionLevelEvaluator.dataset_counts ds_dup_pred).tp +
        (MentionLevelEvaluator.dataset_counts ds_dup_pred).fn ≠
      MentionLevelEvaluator.total_gold ds_dup_pred := by
  decide

/-- Claim C4 amended: after the exact pass, `tp + fp` equals the number of
predicted spans for every corpus; `tp + fn` equals the number of gold
spans provided that within every part the gold spans are pairwise
distinct under exact identity and likewise the predicted spans (with
duplicates, a single gold span can exactly match several predicted
spans — or conversely — and the identity fails). -/
theorem c4_amended :
    (∀ d : Dataset,
      (MentionLevelEvaluator.dataset_counts d).tp +
        (MentionLevelEvaluator.dataset_counts d).fp =
        MentionLevelEvaluator.total_predicted d) ∧
    (∀ d : Dataset,
      (∀ part ∈ MentionLevelEvaluator.all_parts d,
        (part.annotations.map span_key).Nodup ∧
        (part.predicted_annotations.map span_key).Nodup) →
      (MentionLevelEvaluator.dataset_counts d).tp +
        (MentionLevelEvaluator.dataset_counts d).fn =
        MentionLevelEvaluator.total_gold d) := by
  constructor
  · intro d
    unfold MentionLevelEvaluator.dataset_counts MentionLevelEvaluator.total_predicted
    rw [foldr_counts_tp, foldr_counts_fp, List.map_map, List.map_map, ← sum_map_add_nat]
    apply congrArg List.sum
    apply List.map_congr_left
    intro part _
    simp only [Function.comp_apply]
    exact countP_add_countP_not _ part.predicted_annotations
  · intro d h
    unfold MentionLevelEvaluator.dataset_counts MentionLevelEvaluator.total_gold
    rw [foldr_counts_tp, foldr_counts_fn, List.map_map, List.map_map, ← sum_map_add_nat]
    apply congrArg List.sum
    apply List.map_congr_left
    intro part hpart
    simp only [Function.comp_apply]
    exact part_tp_fn part (h part hpart).1 (h part hpart).2

/-- Witness for C4's amended theorem on scenario 3's corpus, whose parts
have duplicate-free span keys. -/
theorem c4_amended_witness :
    (MentionLevelEvaluator.dataset_counts ds_scenario3).tp +
        (MentionLevelEvaluator.dataset_counts ds_scenario3).fp =
      MentionLevelEvaluator.total_predicted ds_scenario3 ∧
    (MentionLevelEvaluator.dataset_counts ds_scenario3).tp +
        (MentionLevelEvaluator.dataset_counts ds_scenario3).fn =
      MentionLevelEvaluator.total_gold ds_scenario3 :=
  ⟨c4_amended.1 ds_scenario3, c4_amended.2 ds_scenario3 (by decide)⟩

/-- A finite sum over subclasses of sums over parts commutes to a sum over
parts of sums over subclasses. -/
theorem sum_finset_list_swap {α : Type} (S : Finset ℕ) (L : List α) (g : ℕ → α → ℕ) :
    ∑ s ∈ S, (L.map (g s)).sum = (L.map fun x => ∑ s ∈ S, g s x).sum := by
  induction L with
  | nil => simp
  | cons a l ih => simp [List.map_cons, List.sum_cons, Finset.sum_add_distrib, ih]

/-- Splitting a count by the (unique) subclass of each element: summing the
subclass-restricted counts over a set containing every element's subclass
recovers the unrestricted count. -/
theorem countP_subclass_sum (S : Finset ℕ) (P : Entity → Bool) (l : List Entity)
    (h : ∀ e ∈ l, e.subclass ∈ S) :
    ∑ s ∈ S, l.countP (fun e => P e && e.subclass == s) = l.countP P := by
  induction l with
  | nil => simp
  | cons a l ih =>
    have ha : a.subclass ∈ S := h a (List.mem_cons_self a l)
    have hl : ∀ e ∈ l, e.subclass ∈ S := fun e he => h e (List.mem_cons_of_mem a he)
    simp only [List.countP_cons]
    rw [Finset.sum_add_distrib, ih hl]
    congr 1
    cases hP : P a with
    | false => simp [hP]
    | true =>
      simp only [hP, Bool.true_and, beq_iff_eq, if_true]
      rw [Finset.sum_ite_eq]
      exact if_pos ha

/-- The subclass of any gold annotation of the corpus belongs to the
discovered subclass set. -/
theorem mem_subclasses_of_gold (d : Dataset) (part : DocPart)
    (hpart : part ∈ MentionLevelEvaluator.all_parts d)
    (e : Entity) (he : e ∈ part.annotations) :
    e.subclass ∈ MentionLevelEvaluator.subclasses d := by
  unfold MentionLevelEvaluator.subclasses
  apply Finset.mem_union_left
  rw [List.mem_toFinset]
  refine List.mem_map.mpr ⟨e, ?_, rfl⟩
  rw [List.mem_flatten]
  exact ⟨part.annotations, List.mem_map.mpr ⟨part, hpart, rfl⟩, he⟩

/-- The subclass of any predicted annotation of the corpus belongs to the
discovered subclass set. -/
theorem mem_subclasses_of_predicted (d : Dataset) (part : DocPart)
    (hpart : part ∈ MentionLevelEvaluator.all_parts d)
    (e : Entity) (he : e ∈ part.predicted_annotations) :
    e.subclass ∈ MentionLevelEvaluator.subclasses d := by
  unfold MentionLevelEvaluator.subclasses
  apply Finset.mem_union_right
  rw [List.mem_toFinset]
  refine List.mem_map.mpr ⟨e, ?_, rfl⟩
  rw [List.mem_flatten]
  exact ⟨part.predicted_annotations, List.mem_map.mpr ⟨part, hpart, rfl⟩, he⟩

/-- Claim C9: with subclass analysis enabled, the per-subclass tp counts
sum exactly to the aggregate tp, the per-subclass fp counts to the
aggregate fp, and the per-subclass fn counts to the aggregate fn (every
aggregate increment at evaluators.py lines 94–109 is mirrored to exactly
one subclass bucket, and the discovered subclass set covers every
annotation). -/
theorem c9_subclass_totals (d : Dataset) :
    (∑ s ∈ MentionLevelEvaluator.subclasses d,
      (MentionLevelEvaluator.subclass_dataset_counts s d).tp) =
        (MentionLevelEvaluator.dataset_counts d).tp ∧
    (∑ s ∈ MentionLevelEvaluator.subclasses d,
      (MentionLevelEvaluator.subclass_dataset_counts s d).fp) =
        (MentionLevelEvaluator.dataset_counts d).fp ∧
    (∑ s ∈ MentionLevelEvaluator.subclasses d,
      (MentionLevelEvaluator.subclass_dataset_counts s d).fn) =
        (MentionLevelEvaluator.dataset_counts d).fn := by
  refine ⟨?_, ?_, ?_⟩
  · unfold MentionLevelEvaluator.subclass_dataset_counts MentionLevelEvaluator.dataset_counts
    simp only [foldr_counts_tp, List.map_map]
    rw [sum_finset_list_swap (MentionLevelEvaluator.subclasses d)
      (MentionLevelEvaluator.all_parts d)
      (fun s => MentionLevelEvaluator.Counts.tp ∘ MentionLevelEvaluator.subclass_part_counts s)]
    apply congrArg List.sum
    apply List.map_congr_left
    intro part hpart
    simp only [Function.comp_apply, MentionLevelEvaluator.subclass_part_counts,
      MentionLevelEvaluator.part_counts]
    exact countP_subclass_sum _ _ _
      (fun e he => mem_subclasses_of_predicted d part hpart e he)
  · unfold MentionLevelEvaluator.subclass_dataset_counts MentionLevelEvaluator.dataset_counts
    simp only [foldr_counts_fp, List.map_map]
    rw [sum_finset_list_swap (MentionLevelEvaluator.subclasses d)
      (MentionLevelEvaluator.all_parts d)
      (fun s => MentionLevelEvaluator.Counts.fp ∘ MentionLevelEvaluator.subclass_part_counts s)]
    apply congrArg List.sum
    apply List.map_congr_left
    intro part hpart
    simp only [Function.comp_apply, MentionLevelEvaluator.subclass_part_counts,
      MentionLevelEvaluator.part_counts]
    exact countP_subclass_sum _ _ _
      (fun e he => mem_subclasses_of_predicted d part hpart e he)
  · unfold MentionLevelEvaluator.subclass_dataset_counts MentionLevelEvaluator.dataset_counts
    simp only [foldr_counts_fn, List.map_map]
    rw [sum_finset_list_swap (MentionLevelEvaluator.subclasses d)
      (MentionLevelEvaluator.all_parts d)
      (fun s => MentionLevelEvaluator.Counts.fn ∘ MentionLevelEvaluator.subclass_part_counts s)]
    apply congrArg List.sum
    apply List.map_congr_left
    intro part hpart
    simp only [Function.comp_apply, MentionLevelEvaluator.subclass_part_counts,
      MentionLevelEvaluator.part_counts]
    exact countP_subclass_sum _ _ _
      (fun e he => mem_subclasses_of_gold d part hpart e he)
